import Mathlib

/-!
Verification of the market-prediction repository.

The repository's core trading engine (LMSR pricing, trade execution,
market lifecycle, settlement) is specified in the design documents but its
implementation is not part of the checked-in sources; those components are
modelled here directly from the specification text.  The frontend
TypeScript sources (role checks, the API client, the auth store) are
present and are embedded faithfully from the code.
-/

namespace PricingModel

open Real

/-- Modelled from the spec: `Cost(q) -> real`: `b * ln(Σ exp(q_i / b))`.
The implementation is missing from the sources; the log-sum-exp shift the
spec prescribes is a numerical-stability measure that does not change the
mathematical value, so the unshifted form is used. -/
noncomputable def cost {n : ℕ} (b : ℝ) (q : Fin n → ℝ) : ℝ :=
  b * Real.log (∑ j, Real.exp (q j / b))

/-- Modelled from the spec: `Probability(q, i)`:
`exp((q_i - m)/b) / Σ_j exp((q_j - m)/b)` where `m = max_j q_j`, which the
spec itself states is "equivalent to the softmax of `q/b`"; the shift by
`m` is numerical stabilisation only, so the softmax form is used.  The
clamp to `[0.001, 0.999]` is, per the spec, a separate reporting concern
(`clampProb` below) and never enters cost accounting. -/
noncomputable def probability {n : ℕ} (b : ℝ) (q : Fin n → ℝ) (i : Fin n) : ℝ :=
  Real.exp (q i / b) / ∑ j, Real.exp (q j / b)

/-- Modelled from the spec: the reporting clamp of a probability to
`[0.001, 0.999]`. -/
noncomputable def clampProb (p : ℝ) : ℝ :=
  max 0.001 (min 0.999 p)

/-- Modelled from the spec: `TradeCost(q, i, delta)`:
`Cost(q with q_i += delta) - Cost(q)`. -/
noncomputable def tradeCost {n : ℕ} (b : ℝ) (q : Fin n → ℝ) (i : Fin n) (delta : ℝ) : ℝ :=
  cost b (Function.update q i (q i + delta)) - cost b q

/-- Modelled from the spec: `WouldExceedBounds(q, i, delta) -> bool` holds
when applying the trade would drive some outcome's post-trade probability
outside `[0.001, 0.999]`. -/
def wouldExceedBounds {n : ℕ} (b : ℝ) (q : Fin n → ℝ) (i : Fin n) (delta : ℝ) : Prop :=
  ∃ j : Fin n, probability b (Function.update q i (q i + delta)) j < 0.001 ∨
    0.999 < probability b (Function.update q i (q i + delta)) j

/-- The denominator of the softmax is positive whenever there is at least
one outcome. -/
lemma sumExp_pos {n : ℕ} (b : ℝ) (q : Fin n → ℝ) (hn : 0 < n) :
    0 < ∑ j, Real.exp (q j / b) := by
  apply Finset.sum_pos
  · intro j _
    exact Real.exp_pos _
  · exact Finset.univ_nonempty_iff.mpr (Fin.pos_iff_nonempty.mp hn)

/-- The softmax probabilities sum to one exactly. -/
lemma sum_probability_eq_one {n : ℕ} (b : ℝ) (q : Fin n → ℝ) (hn : 0 < n) :
    (∑ i, probability b q i) = 1 := by
  unfold probability
  rw [← Finset.sum_div]
  exact div_self (ne_of_gt (sumExp_pos b q hn))

/-- Summing the composite `fun j => exp (update q i v j / b)` splits off
the updated coordinate. -/
lemma sumExp_update {n : ℕ} (b : ℝ) (q : Fin n → ℝ) (i : Fin n) (v : ℝ) :
    (∑ j, Real.exp (Function.update q i v j / b)) =
      Real.exp (v / b) + ∑ j ∈ Finset.univ \ {i}, Real.exp (q j / b) := by
  have h : (fun j => Real.exp (Function.update q i v j / b)) =
      Function.update (fun j => Real.exp (q j / b)) i (Real.exp (v / b)) := by
    funext j
    by_cases hj : j = i
    · subst hj
      simp [Function.update_same]
    · simp [Function.update_noteq hj]
  rw [show (∑ j, Real.exp (Function.update q i v j / b)) =
      ∑ j, Function.update (fun j => Real.exp (q j / b)) i (Real.exp (v / b)) j from
      Finset.sum_congr rfl (fun j _ => congrFun h j)]
  rw [Finset.sum_update_of_mem (Finset.mem_univ i)]

end PricingModel

/-- C1: for every vector of outcome quantities `q` and every liquidity
parameter `b > 0`, the probabilities over all outcomes sum to `1` within a
tolerance of `1e-6` (in the exact real model the sum is exactly `1`). -/
theorem C1_probability_sums_to_one {n : ℕ} (b : ℝ) (q : Fin n → ℝ)
    (_hb : 0 < b) (hn : 0 < n) :
    |(∑ i, PricingModel.probability b q i) - 1| ≤ 1e-6 := by
  rw [PricingModel.sum_probability_eq_one b q hn]
  norm_num

/-- C1 witness: a concrete two-outcome market with `b = 100`. -/
theorem C1_probability_sums_to_one_witness :
    (0 : ℝ) < 100 ∧ 0 < 2 ∧
      |(∑ i, PricingModel.probability 100 (fun _ : Fin 2 => 0) i) - 1| ≤ 1e-6 :=
  ⟨by norm_num, by norm_num,
    C1_probability_sums_to_one 100 (fun _ : Fin 2 => 0) (by norm_num) (by norm_num)⟩

/-- C4: buying `k > 0` shares of outcome `i` and then immediately selling
`k` shares of the same outcome at the resulting quantities yields a net
cost of exactly `0` (hence within any rounding tolerance). -/
theorem C4_buy_sell_round_trip {n : ℕ} (b : ℝ) (q : Fin n → ℝ) (i : Fin n)
    (k : ℝ) (_hk : 0 < k) :
    PricingModel.tradeCost b q i k +
      PricingModel.tradeCost b (Function.update q i (q i + k)) i (-k) = 0 := by
  simp only [PricingModel.tradeCost]
  rw [Function.update_same, show q i + k + -k = q i by ring,
    Function.update_idem, Function.update_eq_self]
  ring

/-- C4 witness: a concrete round trip of 10 shares on a fresh binary
market with `b = 100`. -/
theorem C4_buy_sell_round_trip_witness :
    (0 : ℝ) < 10 ∧
      PricingModel.tradeCost 100 (fun _ : Fin 2 => 0) 0 10 +
        PricingModel.tradeCost 100
          (Function.update (fun _ : Fin 2 => (0 : ℝ)) 0 ((fun _ : Fin 2 => (0 : ℝ)) 0 + 10))
          0 (-10) = 0 :=
  ⟨by norm_num, C4_buy_sell_round_trip 100 (fun _ : Fin 2 => 0) 0 10 (by norm_num)⟩

/-- C5: for fixed quantities `q` and outcome `i`, the marginal trade cost
is strictly increasing in the trade size `delta`. -/
theorem C5_tradeCost_strictMono {n : ℕ} (b : ℝ) (q : Fin n → ℝ) (i : Fin n)
    (d1 d2 : ℝ) (hb : 0 < b) (h : d1 < d2) :
    PricingModel.tradeCost b q i d1 < PricingModel.tradeCost b q i d2 := by
  have hn : 0 < n := i.pos
  simp only [PricingModel.tradeCost]
  have hcost : PricingModel.cost b (Function.update q i (q i + d1)) <
      PricingModel.cost b (Function.update q i (q i + d2)) := by
    simp only [PricingModel.cost]
    apply mul_lt_mul_of_pos_left _ hb
    apply Real.log_lt_log
    · exact PricingModel.sumExp_pos b _ hn
    · rw [PricingModel.sumExp_update, PricingModel.sumExp_update]
      apply add_lt_add_right
      apply Real.exp_lt_exp.mpr
      apply div_lt_div_of_pos_right _ hb
      linarith
  linarith

/-- C5 witness: on a fresh binary market with `b = 100`, buying costs
strictly more for `delta = 1` than for `delta = 0`. -/
theorem C5_tradeCost_strictMono_witness :
    (0 : ℝ) < 100 ∧ (0 : ℝ) < 1 ∧
      PricingModel.tradeCost 100 (fun _ : Fin 2 => 0) 0 0 <
        PricingModel.tradeCost 100 (fun _ : Fin 2 => 0) 0 1 :=
  ⟨by norm_num, by norm_num,
    C5_tradeCost_strictMono 100 (fun _ : Fin 2 => 0) 0 0 1 (by norm_num) (by norm_num)⟩

namespace Engine

/-- Modelled from the spec: market lifecycle states
`DRAFT, OPEN, CLOSED, RESOLVED, CANCELLED`.  The engine implementation is
missing from the sources. -/
inductive MarketStatus
  | draft
  | «open»
  | closed
  | resolved
  | cancelled
  deriving DecidableEq

/-- Modelled from the spec: a trade is a buy or a sell. -/
inductive TradeAction
  | buy
  | sell
  deriving DecidableEq

/-- Modelled from the spec: the typed error taxonomy of §7 restricted to
the kinds the claims mention. -/
inductive TradeError
  | marketNotOpen
  | invalidQuantity
  | insufficientPosition
  | insufficientBalance
  | priceBoundaryExceeded
  | invalidStateTransition
  deriving DecidableEq

/-- Modelled from the spec: transaction types. -/
inductive TxnType
  | buy
  | sell
  | payout
  | refund
  deriving DecidableEq

/-- Modelled from the spec: a Position holds `quantity` (shares held) and
`totalCost` (cumulative signed cost basis). -/
structure Position where
  quantity : ℝ
  totalCost : ℝ

/-- Modelled from the spec: an immutable Transaction record. -/
structure Txn (u : ℕ) where
  user : Fin u
  type : TxnType
  quantity : ℝ
  cost : ℝ
  balanceAfter : ℝ

/-- Modelled from the spec: a PriceHistory row (one outcome's probability
at a point in time). -/
structure PriceRow (n : ℕ) where
  outcome : Fin n
  probability : ℝ

/-- Modelled from the spec: the entity set for a single market with `n`
outcomes and `u` users: market status and parameters, outcome quantities,
user balances, positions, and the two append-only logs. -/
structure EngineState (n u : ℕ) where
  status : MarketStatus
  b : ℝ
  startAt : ℤ
  endAt : ℤ
  resolvedOutcomeId : Option (Fin n)
  quantities : Fin n → ℝ
  balances : Fin u → ℝ
  positions : Fin u → Fin n → Position
  transactions : List (Txn u)
  priceHistory : List (PriceRow n)

/-- Modelled from the spec: an `Execute` request. -/
structure TradeRequest (n u : ℕ) where
  user : Fin u
  outcome : Fin n
  action : TradeAction
  qty : ℤ

variable {n u : ℕ}

/-- Modelled from the spec: the signed LMSR delta of a request
(`action=sell uses delta = -quantity`). -/
def tradeDelta (req : TradeRequest n u) : ℝ :=
  match req.action with
  | .buy => (req.qty : ℝ)
  | .sell => -(req.qty : ℝ)

/-- Modelled from the spec: the lazy time-driven lifecycle sweep:
`DRAFT → OPEN` once `now ≥ startAt`, `OPEN → CLOSED` once `now ≥ endAt`;
all other states are untouched. -/
def sweep (st : EngineState n u) (now : ℤ) : EngineState n u :=
  if st.status = .draft ∧ st.startAt ≤ now then { st with status := .«open» }
  else if st.status = .«open» ∧ st.endAt ≤ now then { st with status := .closed }
  else st

open Classical in
/-- Modelled from the spec: `Ledger.ApplyTrade` — the single indivisible
state change set: debit balance by the cost, upsert the position, add the
delta to the outcome quantity, append one Transaction, and append one
PriceHistory row per outcome with the post-trade probabilities. -/
noncomputable def applyTrade (st : EngineState n u) (req : TradeRequest n u)
    (delta : ℝ) (tcost : ℝ) : EngineState n u :=
  { st with
    balances := Function.update st.balances req.user (st.balances req.user - tcost)
    positions := fun v o =>
      if v = req.user ∧ o = req.outcome then
        ⟨(st.positions v o).quantity + delta, (st.positions v o).totalCost + tcost⟩
      else st.positions v o
    quantities := Function.update st.quantities req.outcome
      (st.quantities req.outcome + delta)
    transactions := st.transactions ++
      [⟨req.user, (match req.action with | .buy => TxnType.buy | .sell => TxnType.sell),
        (req.qty : ℝ), tcost, st.balances req.user - tcost⟩]
    priceHistory := st.priceHistory ++
      (List.finRange n).map (fun j =>
        ⟨j, PricingModel.probability st.b
          (Function.update st.quantities req.outcome
            (st.quantities req.outcome + delta)) j⟩) }

open Classical in
/-- Modelled from the spec: `TradeExecutor.Execute`.  The time-driven
check runs first, then validations in the spec's §4.3 order
(`MarketNotOpen`, `InvalidQuantity`, `InsufficientPosition`,
`InsufficientBalance`, `PriceBoundaryExceeded`); only when every
validation passes is the ledger mutated.  A rejected call returns the
(possibly swept) state with a typed error. -/
noncomputable def execute (st : EngineState n u) (now : ℤ) (req : TradeRequest n u) :
    EngineState n u × Option TradeError :=
  if (sweep st now).status ≠ .«open» then (sweep st now, some .marketNotOpen)
  else if ¬ 0 < req.qty then (sweep st now, some .invalidQuantity)
  else if req.action = .sell ∧
      ¬ ((req.qty : ℝ) ≤ ((sweep st now).positions req.user req.outcome).quantity) then
    (sweep st now, some .insufficientPosition)
  else if req.action = .buy ∧
      ¬ (PricingModel.tradeCost (sweep st now).b (sweep st now).quantities req.outcome
          (tradeDelta req) ≤ (sweep st now).balances req.user) then
    (sweep st now, some .insufficientBalance)
  else if PricingModel.wouldExceedBounds (sweep st now).b (sweep st now).quantities
      req.outcome (tradeDelta req) then
    (sweep st now, some .priceBoundaryExceeded)
  else
    (applyTrade (sweep st now) req (tradeDelta req)
      (PricingModel.tradeCost (sweep st now).b (sweep st now).quantities req.outcome
        (tradeDelta req)), none)

/-- Modelled from the spec: `Publish`, valid only from `DRAFT`. -/
def publish (st : EngineState n u) : EngineState n u × Option TradeError :=
  if st.status = .draft then ({ st with status := .«open» }, none)
  else (st, some .invalidStateTransition)

open Classical in
/-- Modelled from the spec: `SettlementEngine.Resolve`, valid only from
`CLOSED`; every position on the winning outcome with positive quantity is
paid `quantity * 1` point per share (no Transaction is recorded for zero
payouts), then the market becomes `RESOLVED`. -/
noncomputable def resolve (st : EngineState n u) (w : Fin n) :
    EngineState n u × Option TradeError :=
  if st.status = .closed then
    ({ st with
      status := .resolved
      resolvedOutcomeId := some w
      balances := fun v => st.balances v +
        (if 0 < (st.positions v w).quantity then (st.positions v w).quantity else 0)
      transactions := st.transactions ++
        ((List.finRange u).filter (fun v => decide (0 < (st.positions v w).quantity))).map
          (fun v => ⟨v, .payout, (st.positions v w).quantity,
            -(st.positions v w).quantity,
            st.balances v + (st.positions v w).quantity⟩) }, none)
  else (st, some .invalidStateTransition)

open Classical in
/-- Modelled from the spec: `SettlementEngine.Cancel`, valid from `DRAFT`,
`OPEN` or `CLOSED`; every position with `quantity > 0` or
`totalCost ≠ 0` is refunded its `totalCost` (the cost basis, not current
market value) and the market becomes `CANCELLED`.  Outcome quantities are
never touched by refunds. -/
noncomputable def cancel (st : EngineState n u) : EngineState n u × Option TradeError :=
  if st.status = .resolved ∨ st.status = .cancelled then
    (st, some .invalidStateTransition)
  else
    ({ st with
      status := .cancelled
      balances := fun v => st.balances v +
        ∑ o, (if 0 < (st.positions v o).quantity ∨ (st.positions v o).totalCost ≠ 0
              then (st.positions v o).totalCost else 0)
      transactions := st.transactions ++
        (List.finRange u).flatMap (fun v =>
          ((List.finRange n).filter (fun o =>
              decide (0 < (st.positions v o).quantity ∨
                (st.positions v o).totalCost ≠ 0))).map
            (fun o => ⟨v, .refund, (st.positions v o).quantity,
              -(st.positions v o).totalCost,
              st.balances v + (st.positions v o).totalCost⟩)) }, none)

end Engine

namespace Engine

variable {n u : ℕ}

/-- A sweep never changes anything but the market status. -/
lemma sweep_fields (st : EngineState n u) (now : ℤ) :
    (sweep st now).b = st.b ∧
    (sweep st now).quantities = st.quantities ∧
    (sweep st now).balances = st.balances ∧
    (sweep st now).positions = st.positions ∧
    (sweep st now).transactions = st.transactions ∧
    (sweep st now).priceHistory = st.priceHistory := by
  unfold sweep
  split_ifs <;> exact ⟨rfl, rfl, rfl, rfl, rfl, rfl⟩

/-- An open market that has not yet crossed `endAt` is untouched by the
sweep. -/
lemma sweep_open_eq (st : EngineState n u) (now : ℤ)
    (hopen : st.status = .«open») (hnow : ¬ st.endAt ≤ now) :
    sweep st now = st := by
  unfold sweep
  rw [if_neg, if_neg]
  · simp [hnow]
  · simp [hopen]

/-- A market in a terminal state is untouched by the sweep. -/
lemma sweep_terminal_eq (st : EngineState n u) (now : ℤ)
    (hterm : st.status = .resolved ∨ st.status = .cancelled) :
    sweep st now = st := by
  unfold sweep
  rcases hterm with h | h <;> rw [if_neg, if_neg] <;> simp [h]

end Engine

/-- C2: when the earlier validations (market open, positive quantity,
sufficient position for sells, sufficient balance for buys) pass but
applying the trade would drive some outcome's post-trade probability
outside `[0.001, 0.999]`, `Execute` rejects with `PriceBoundaryExceeded`
and leaves the state unchanged (no silent clamping); and
`WouldExceedBounds` holds exactly when some post-trade probability lies
outside the interval. -/
theorem C2_boundary_rejection {n u : ℕ} (st : Engine.EngineState n u) (now : ℤ)
    (req : Engine.TradeRequest n u)
    (hopen : st.status = .«open») (hnow : ¬ st.endAt ≤ now)
    (hqty : 0 < req.qty)
    (hpos : req.action = .sell →
      (req.qty : ℝ) ≤ (st.positions req.user req.outcome).quantity)
    (hbal : req.action = .buy →
      PricingModel.tradeCost st.b st.quantities req.outcome (Engine.tradeDelta req) ≤
        st.balances req.user)
    (hex : PricingModel.wouldExceedBounds st.b st.quantities req.outcome
      (Engine.tradeDelta req)) :
    Engine.execute st now req = (st, some .priceBoundaryExceeded) ∧
      (PricingModel.wouldExceedBounds st.b st.quantities req.outcome
          (Engine.tradeDelta req) ↔
        ∃ j, PricingModel.probability st.b
            (Function.update st.quantities req.outcome
              (st.quantities req.outcome + Engine.tradeDelta req)) j < 0.001 ∨
          0.999 < PricingModel.probability st.b
            (Function.update st.quantities req.outcome
              (st.quantities req.outcome + Engine.tradeDelta req)) j) := by
  have hsw : Engine.sweep st now = st := Engine.sweep_open_eq st now hopen hnow
  refine ⟨?_, Iff.rfl⟩
  unfold Engine.execute
  rw [hsw]
  rw [if_neg (by simp [hopen]), if_neg (by simp [hqty]), if_neg, if_neg, if_pos hex]
  · rintro ⟨hb, hnb⟩
    exact hnb (hbal hb)
  · rintro ⟨hs, hns⟩
    exact hns (hpos hs)

/-- A concrete open binary market with `b = 1` where one user holds 1000
shares of outcome 0. -/
noncomputable def stSellBound : Engine.EngineState 2 1 :=
  { status := .«open», b := 1, startAt := 0, endAt := 100,
    resolvedOutcomeId := none, quantities := fun _ => 0,
    balances := fun _ => 0, positions := fun _ _ => ⟨1000, 5⟩,
    transactions := [], priceHistory := [] }

/-- A request selling all 1000 held shares of outcome 0. -/
def reqSellAll : Engine.TradeRequest 2 1 :=
  { user := 0, outcome := 0, action := .sell, qty := 1000 }

/-- Selling 1000 shares on `stSellBound` drives outcome 0's probability
below `0.001`. -/
lemma stSellBound_exceeds :
    PricingModel.wouldExceedBounds stSellBound.b stSellBound.quantities
      reqSellAll.outcome (Engine.tradeDelta reqSellAll) := by
  refine ⟨0, Or.inl ?_⟩
  have hδ : Engine.tradeDelta reqSellAll = (-1000 : ℝ) := by
    unfold Engine.tradeDelta reqSellAll
    norm_num
  have hupd : Function.update stSellBound.quantities reqSellAll.outcome
      (stSellBound.quantities reqSellAll.outcome + Engine.tradeDelta reqSellAll) =
      Function.update (fun _ : Fin 2 => (0 : ℝ)) 0 (-1000) := by
    rw [hδ]
    norm_num [stSellBound, reqSellAll]
  rw [hupd]
  have hval : PricingModel.probability stSellBound.b
      (Function.update (fun _ : Fin 2 => (0 : ℝ)) 0 (-1000)) 0 =
      Real.exp (-1000) / (Real.exp (-1000) + 1) := by
    unfold PricingModel.probability
    rw [Fin.sum_univ_two]
    rw [Function.update_same, Function.update_noteq (by decide)]
    norm_num [stSellBound]
  rw [hval]
  have hexp : Real.exp (-1000) ≤ 1 / 1001 := by
    rw [Real.exp_neg]
    rw [inv_eq_one_div]
    apply div_le_div_of_nonneg_left (by norm_num) (by norm_num)
    have := Real.add_one_le_exp (1000 : ℝ)
    linarith
  have hpos : (0 : ℝ) < Real.exp (-1000) + 1 := by positivity
  rw [div_lt_iff₀ hpos]
  have := Real.exp_pos (-1000 : ℝ)
  nlinarith

/-- C2 witness: the concrete over-the-boundary sell is rejected with
`PriceBoundaryExceeded` and the state is unchanged. -/
theorem C2_boundary_rejection_witness :
    Engine.execute stSellBound 10 reqSellAll = (stSellBound, some .priceBoundaryExceeded) ∧
      (PricingModel.wouldExceedBounds stSellBound.b stSellBound.quantities
          reqSellAll.outcome (Engine.tradeDelta reqSellAll) ↔
        ∃ j, PricingModel.probability stSellBound.b
            (Function.update stSellBound.quantities reqSellAll.outcome
              (stSellBound.quantities reqSellAll.outcome +
                Engine.tradeDelta reqSellAll)) j < 0.001 ∨
          0.999 < PricingModel.probability stSellBound.b
            (Function.update stSellBound.quantities reqSellAll.outcome
              (stSellBound.quantities reqSellAll.outcome +
                Engine.tradeDelta reqSellAll)) j) :=
  C2_boundary_rejection stSellBound 10 reqSellAll rfl (by norm_num [stSellBound])
    (by norm_num [reqSellAll])
    (fun _ => by norm_num [stSellBound, reqSellAll])
    (fun h => absurd h (by simp [reqSellAll]))
    stSellBound_exceeds

/-- C3: every `Execute` call rejected by any validation leaves the user
balances, positions, outcome quantities, transaction log and price
history log exactly as they were — no partial application is observable.
(The time-driven lifecycle sweep may still update the market status, which
is not one of the five ledger entities.) -/
theorem C3_rejected_execute_unchanged {n u : ℕ} (st : Engine.EngineState n u)
    (now : ℤ) (req : Engine.TradeRequest n u) (e : Engine.TradeError)
    (h : (Engine.execute st now req).2 = some e) :
    (Engine.execute st now req).1.balances = st.balances ∧
    (Engine.execute st now req).1.positions = st.positions ∧
    (Engine.execute st now req).1.quantities = st.quantities ∧
    (Engine.execute st now req).1.transactions = st.transactions ∧
    (Engine.execute st now req).1.priceHistory = st.priceHistory := by
  obtain ⟨-, hq, hb, hp, ht, hph⟩ := Engine.sweep_fields st now
  have key : (Engine.execute st now req).1 = Engine.sweep st now := by
    unfold Engine.execute at h ⊢
    split_ifs at h ⊢ <;> simp_all
  rw [key, hq, hb, hp, ht, hph]
  exact ⟨rfl, rfl, rfl, rfl, rfl⟩

/-- A concrete draft market used to reject a trade. -/
noncomputable def stDraft : Engine.EngineState 2 1 :=
  { status := .draft, b := 100, startAt := 0, endAt := 100,
    resolvedOutcomeId := none, quantities := fun _ => 0,
    balances := fun _ => 1000, positions := fun _ _ => ⟨0, 0⟩,
    transactions := [], priceHistory := [] }

/-- A concrete buy request for 10 shares of outcome 0. -/
def reqBuyTen : Engine.TradeRequest 2 1 :=
  { user := 0, outcome := 0, action := .buy, qty := 10 }

/-- C3 witness: trading on the (still draft) market is rejected with
`MarketNotOpen` and all five ledger entities are unchanged. -/
theorem C3_rejected_execute_unchanged_witness :
    (Engine.execute stDraft (-1) reqBuyTen).2 = some .marketNotOpen ∧
      ((Engine.execute stDraft (-1) reqBuyTen).1.balances = stDraft.balances ∧
       (Engine.execute stDraft (-1) reqBuyTen).1.positions = stDraft.positions ∧
       (Engine.execute stDraft (-1) reqBuyTen).1.quantities = stDraft.quantities ∧
       (Engine.execute stDraft (-1) reqBuyTen).1.transactions = stDraft.transactions ∧
       (Engine.execute stDraft (-1) reqBuyTen).1.priceHistory = stDraft.priceHistory) := by
  have h : (Engine.execute stDraft (-1) reqBuyTen).2 = some .marketNotOpen := by
    have hsw : Engine.sweep stDraft (-1) = stDraft := by
      unfold Engine.sweep
      rw [if_neg, if_neg]
      · simp [stDraft]
      · norm_num [stDraft]
    unfold Engine.execute
    rw [hsw, if_pos]
    simp [stDraft]
  exact ⟨h, C3_rejected_execute_unchanged stDraft (-1) reqBuyTen _ h⟩

/-- C6: once a market is `RESOLVED` or `CANCELLED`, no operation —
`Publish`, `Resolve`, `Cancel`, a time-driven sweep, or a trade — ever
changes its status again; in particular `Resolve` on an already terminal
market returns `InvalidStateTransition` and leaves every balance (indeed
the whole state) unchanged, and a trade is rejected with
`MarketNotOpen`. -/
theorem C6_terminal_states_final {n u : ℕ} (st : Engine.EngineState n u)
    (w : Fin n) (now : ℤ) (req : Engine.TradeRequest n u)
    (hterm : st.status = .resolved ∨ st.status = .cancelled) :
    Engine.publish st = (st, some .invalidStateTransition) ∧
    Engine.resolve st w = (st, some .invalidStateTransition) ∧
    Engine.cancel st = (st, some .invalidStateTransition) ∧
    Engine.sweep st now = st ∧
    Engine.execute st now req = (st, some .marketNotOpen) := by
  have hsw : Engine.sweep st now = st := Engine.sweep_terminal_eq st now hterm
  refine ⟨?_, ?_, ?_, hsw, ?_⟩
  · unfold Engine.publish
    rcases hterm with h | h <;> rw [if_neg] <;> simp [h]
  · unfold Engine.resolve
    rcases hterm with h | h <;> rw [if_neg] <;> simp [h]
  · unfold Engine.cancel
    rcases hterm with h | h <;> rw [if_pos] <;> simp [h]
  · unfold Engine.execute
    rw [hsw, if_pos]
    rcases hterm with h | h <;> simp [h]

/-- A concrete resolved market holding one settled position. -/
noncomputable def stResolved : Engine.EngineState 2 1 :=
  { status := .resolved, b := 100, startAt := 0, endAt := 100,
    resolvedOutcomeId := some 0, quantities := fun _ => 0,
    balances := fun _ => 1005, positions := fun _ _ => ⟨10, 5⟩,
    transactions := [], priceHistory := [] }

/-- C6 witness: every operation on the concrete resolved market is
rejected and the state is unchanged. -/
theorem C6_terminal_states_final_witness :
    Engine.publish stResolved = (stResolved, some .invalidStateTransition) ∧
    Engine.resolve stResolved 0 = (stResolved, some .invalidStateTransition) ∧
    Engine.cancel stResolved = (stResolved, some .invalidStateTransition) ∧
    Engine.sweep stResolved 1000 = stResolved ∧
    Engine.execute stResolved 1000 reqBuyTen = (stResolved, some .marketNotOpen) :=
  C6_terminal_states_final stResolved 0 1000 reqBuyTen (Or.inl rfl)

/-- C7: `Cancel` on a market in state `DRAFT`, `OPEN` or `CLOSED`
succeeds, refunds each holder of a qualifying position (`quantity > 0` or
`totalCost ≠ 0`) exactly that position's `totalCost` — the cumulative cost
basis, not the current market value — and sets the market status to
`CANCELLED`; outcome quantities are untouched. -/
theorem C7_cancel_refunds_totalCost {n u : ℕ} (st : Engine.EngineState n u)
    (h : st.status = .draft ∨ st.status = .«open» ∨ st.status = .closed) :
    (Engine.cancel st).2 = none ∧
    (Engine.cancel st).1.status = .cancelled ∧
    (∀ v, (Engine.cancel st).1.balances v = st.balances v +
      ∑ o, (if 0 < (st.positions v o).quantity ∨ (st.positions v o).totalCost ≠ 0
            then (st.positions v o).totalCost else 0)) ∧
    (Engine.cancel st).1.quantities = st.quantities := by
  have hcond : ¬ (st.status = .resolved ∨ st.status = .cancelled) := by
    rcases h with h | h | h <;> simp [h]
  unfold Engine.cancel
  rw [if_neg hcond]
  exact ⟨rfl, rfl, fun v => rfl, rfl⟩

/-- A concrete open market where the single user bought 10 shares of
outcome 0 at a total cost of 4.879. -/
noncomputable def stOpenWithPosition : Engine.EngineState 2 1 :=
  { status := .«open», b := 100, startAt := 0, endAt := 100,
    resolvedOutcomeId := none, quantities := Function.update (fun _ => 0) 0 10,
    balances := fun _ => 995.121,
    positions := fun _ o => if o = 0 then ⟨10, 4.879⟩ else ⟨0, 0⟩,
    transactions := [], priceHistory := [] }

/-- C7 witness: cancelling the concrete open market refunds the buyer's
cost basis and the market becomes cancelled. -/
theorem C7_cancel_refunds_totalCost_witness :
    (Engine.cancel stOpenWithPosition).2 = none ∧
    (Engine.cancel stOpenWithPosition).1.status = .cancelled ∧
    (∀ v, (Engine.cancel stOpenWithPosition).1.balances v =
      stOpenWithPosition.balances v +
      ∑ o, (if 0 < (stOpenWithPosition.positions v o).quantity ∨
              (stOpenWithPosition.positions v o).totalCost ≠ 0
            then (stOpenWithPosition.positions v o).totalCost else 0)) ∧
    (Engine.cancel stOpenWithPosition).1.quantities = stOpenWithPosition.quantities :=
  C7_cancel_refunds_totalCost stOpenWithPosition (Or.inr (Or.inl rfl))

namespace FrontendAuth

/-- Embedded from `frontend/src/types/auth.ts`:
`type UserRole = "user" | "moderator" | "admin"`. -/
inductive UserRole
  | user
  | moderator
  | admin
  deriving DecidableEq, Fintype

/-- Embedded from `frontend/src/types/auth.ts`:
`ROLE_HIERARCHY = { user: 1, moderator: 2, admin: 3 }`. -/
def ROLE_HIERARCHY : UserRole → ℕ
  | .user => 1
  | .moderator => 2
  | .admin => 3

/-- Embedded from `frontend/src/types/auth.ts`:
`hasRequiredRole(userRole, requiredRole)` returns
`ROLE_HIERARCHY[userRole] >= ROLE_HIERARCHY[requiredRole]`. -/
def hasRequiredRole (userRole requiredRole : UserRole) : Bool :=
  ROLE_HIERARCHY requiredRole ≤ ROLE_HIERARCHY userRole

end FrontendAuth

/-- C8: `hasRequiredRole` returns true exactly when the hierarchy level of
the user's role is at least that of the required role; consequently it is
reflexive and `admin` satisfies every requirement. -/
theorem C8_hasRequiredRole_hierarchy :
    (∀ ur rr : FrontendAuth.UserRole,
      FrontendAuth.hasRequiredRole ur rr = true ↔
        FrontendAuth.ROLE_HIERARCHY rr ≤ FrontendAuth.ROLE_HIERARCHY ur) ∧
    (∀ r : FrontendAuth.UserRole, FrontendAuth.hasRequiredRole r r = true) ∧
    (∀ r : FrontendAuth.UserRole, FrontendAuth.hasRequiredRole .admin r = true) := by
  refine ⟨?_, ?_, ?_⟩ <;> decide

namespace ApiClient

/-- Embedded from `frontend/src/lib/api/client.ts`: the fields of a parsed
JSON error body that `handleResponse` reads (`error_code`, `message`,
`details`); a missing field is `none`. -/
structure JsonBody where
  error_code : Option String
  message : Option String
  details : Option String
  deriving DecidableEq

/-- Embedded from `frontend/src/lib/api/client.ts`: the part of a fetch
`Response` the client reads.  `json = none` models a body that
`response.json()` fails to parse. -/
structure Response where
  ok : Bool
  status : ℕ
  statusText : String
  json : Option JsonBody
  deriving DecidableEq

/-- Embedded from `frontend/src/lib/api/client.ts`: `class ApiError`
carrying `status`, `errorCode`, `message` and optional `details`. -/
structure ApiError where
  status : ℕ
  errorCode : String
  message : String
  details : Option String
  deriving DecidableEq

/-- A failure mode of `handleResponse`: an `ApiError` thrown on a non-ok
response, or the rejection of `response.json()` on an ok response whose
body does not parse (a `SyntaxError` in JavaScript, not an `ApiError`). -/
inductive ClientError
  | api (e : ApiError)
  | jsonDecode
  deriving DecidableEq

/-- JavaScript `a || b` on an optional string: falsy (absent or empty)
falls back to the default. -/
def jsOr (o : Option String) (d : String) : String :=
  match o with
  | some s => if s = "" then d else s
  | none => d

/-- Embedded from `frontend/src/lib/api/client.ts`: `handleResponse`.
If `response.ok` fails, it builds an `ApiError` from the parsed error body
(defaults `"UNKNOWN_ERROR"` / `"An error occurred"`), or — when the body
cannot be parsed as JSON — from the default code and `response.statusText`;
otherwise it returns the parsed JSON body. -/
def handleResponse (r : Response) : Except ClientError JsonBody :=
  if r.ok then
    match r.json with
    | some j => .ok j
    | none => .error .jsonDecode
  else
    match r.json with
    | some j => .error (.api
        { status := r.status, errorCode := jsOr j.error_code "UNKNOWN_ERROR",
          message := jsOr j.message "An error occurred", details := j.details })
    | none => .error (.api
        { status := r.status, errorCode := "UNKNOWN_ERROR",
          message := r.statusText, details := none })

/-- Embedded from `frontend/src/lib/api/client.ts`: `apiGet` performs the
fetch and returns `handleResponse(response)`. -/
def apiGet (r : Response) : Except ClientError JsonBody :=
  handleResponse r

/-- Embedded from `frontend/src/lib/api/client.ts`: `apiPost` performs the
fetch and returns `handleResponse(response)`. -/
def apiPost (r : Response) : Except ClientError JsonBody :=
  handleResponse r

end ApiClient

/-- C9: `handleResponse` (and hence every `apiGet`/`apiPost` call) throws
an `ApiError` if and only if the response is not ok; when the error body
cannot be parsed as JSON the `ApiError` carries the default error code
`"UNKNOWN_ERROR"` and the response's `statusText` as its message; and when
the response is ok the parsed JSON body is returned. -/
theorem C9_handleResponse_api_error_iff_not_ok (r : ApiClient.Response) :
    ((∃ e, ApiClient.handleResponse r = .error (.api e)) ↔ r.ok = false) ∧
    (r.ok = false → r.json = none →
      ApiClient.handleResponse r =
        .error (.api ⟨r.status, "UNKNOWN_ERROR", r.statusText, none⟩)) ∧
    (r.ok = true → ∀ j, r.json = some j → ApiClient.handleResponse r = .ok j) ∧
    ApiClient.apiGet r = ApiClient.handleResponse r ∧
    ApiClient.apiPost r = ApiClient.handleResponse r := by
  obtain ⟨ok, status, statusText, json⟩ := r
  cases ok <;> cases json <;>
    simp [ApiClient.handleResponse, ApiClient.apiGet, ApiClient.apiPost]

/-- C9 witness: a 404 response with an unparseable body yields the default
error code and the status text as message. -/
theorem C9_handleResponse_api_error_iff_not_ok_witness :
    ApiClient.handleResponse ⟨false, 404, "Not Found", none⟩ =
      .error (.api ⟨404, "UNKNOWN_ERROR", "Not Found", none⟩) :=
  (C9_handleResponse_api_error_iff_not_ok ⟨false, 404, "Not Found", none⟩).2.1 rfl rfl

namespace AuthStore

/-- Embedded from `frontend/src/types/auth.ts`: `interface User`. -/
structure User where
  id : String
  email : String
  name : Option String
  role : FrontendAuth.UserRole
  department : Option String
  balance : ℚ

/-- Embedded from `frontend/src/types/auth.ts`: `interface AuthState`. -/
structure AuthState where
  user : Option User
  token : Option String
  isAuthenticated : Bool
  isLoading : Bool
  error : Option String

/-- Embedded from `frontend/src/lib/store/auth.ts`: the `logout` action.
It reads the current token, sets `isLoading`/clears `error`, calls the
backend logout API when a token is present — swallowing any API error in
the empty `catch` — and in the `finally` block clears `user`, `token`,
`isAuthenticated` and `isLoading`.  The `api` argument models the outcome
of the backend call. -/
def logout (s : AuthState) (api : Except ApiClient.ClientError Unit) :
    Except ApiClient.ClientError AuthState :=
  let s1 : AuthState := { s with isLoading := true, error := none }
  let s2 : AuthState :=
    match s.token with
    | none => s1
    | some _ =>
      match api with
      | .ok _ => s1
      | .error _ => s1
  .ok { s2 with user := none, token := none, isAuthenticated := false, isLoading := false }

end AuthStore

/-- C10: from every starting auth-store state, `logout` completes without
propagating any API error and leaves the store with `user = null`,
`token = null`, `isAuthenticated = false` and `isLoading = false`,
whether or not the backend logout call succeeds. -/
theorem C10_logout_always_clears_auth (s : AuthStore.AuthState)
    (api : Except ApiClient.ClientError Unit) :
    ∃ s2, AuthStore.logout s api = .ok s2 ∧
      s2.user = none ∧ s2.token = none ∧
      s2.isAuthenticated = false ∧ s2.isLoading = false := by
  have h : AuthStore.logout s api = .ok ⟨none, none, false, false, none⟩ := by
    unfold AuthStore.logout
    rcases s with ⟨su, st, sa, sl, se⟩
    cases st <;> cases api <;> rfl
  exact ⟨⟨none, none, false, false, none⟩, h, rfl, rfl, rfl, rfl⟩
